import Mathlib

/-!
Verification of the busk-cats subscription worker (`src/src/worker.ts`,
`src/schema.sql`) against its natural-language specification.

The worker is shallowly embedded: the D1 `subscribers` table becomes a
`Store` carrying a list of rows plus the autoincrement counter and a model
clock for `created_at`; each HTTP handler becomes a pure function from a
`Request`, the environment bindings, the (nondeterministic) random token
and the outbound-email transport oracle to a `StepResult` holding the
response (or a thrown exception), the resulting store, and the log of
transport invocations.
-/

namespace BuskCats

/-- JavaScript `String.prototype.trim` whitespace class (the WhiteSpace and
LineTerminator productions; the rarely-seen Unicode space separators beyond
NBSP are represented by the listed code points). -/
def isJsWhitespace (c : Char) : Bool :=
  c = ' ' || c = '\t' || c = '\n' || c = '\r' ||
  c = Char.ofNat 0x0B || c = Char.ofNat 0x0C || c = Char.ofNat 0xA0 ||
  c = Char.ofNat 0x2028 || c = Char.ofNat 0x2029 || c = Char.ofNat 0xFEFF

/-- JavaScript `s.trim()`: strip leading and trailing whitespace. -/
def jsTrim (s : String) : String :=
  ⟨((s.toList.dropWhile isJsWhitespace).reverse.dropWhile isJsWhitespace).reverse⟩

/-- JavaScript `s.toLowerCase()` (modelled on the ASCII range, which is the
range exercised by email addresses in this system). -/
def jsToLowerCase (s : String) : String :=
  ⟨s.toList.map Char.toLower⟩

/-- JavaScript `s.includes(t)` for the single-character needle `"@"` used
by the email check (membership of the character in the string). -/
def jsIncludes (s : String) (c : Char) : Bool :=
  s.toList.any (fun x => x == c)

/-- JavaScript truthiness of a `string | undefined` value: `undefined` and
the empty string are falsy. -/
def strTruthy : Option String → Bool
  | none => false
  | some s => s != ""

/-- One row of the `subscribers` table (`src/schema.sql`): surrogate `id`,
`email`, `list`, `token` (UNIQUE), `confirmed` (INTEGER 0/1, modelled as
`Bool`), `created_at` (modelled as a `Nat` timestamp). -/
structure Subscriber where
  id : Nat
  email : String
  list : String
  token : String
  confirmed : Bool
  createdAt : Nat
deriving Repr, DecidableEq

/-- The D1 database state: the `subscribers` rows, the AUTOINCREMENT
counter, and a model clock supplying `datetime('now')`. -/
structure Store where
  rows : List Subscriber
  nextId : Nat
  now : Nat
deriving Repr, DecidableEq

/-- The single storage error the worker distinguishes: a UNIQUE-constraint
violation (the code string-matches `"UNIQUE"` in the thrown message). -/
inductive DbError where
  | uniqueViolation
deriving Repr, DecidableEq

/-- `INSERT INTO subscribers (email, list, token[, confirmed]) VALUES (...)`:
fails with a UNIQUE violation when the token collides (`token TEXT UNIQUE`)
or the `(email, list)` pair collides (`UNIQUE(email, list)`); otherwise
appends the new row with the next surrogate id and the current time. -/
def dbInsert (email list token : String) (confirmed : Bool) (s : Store) :
    Except DbError Store :=
  if s.rows.any (fun r => r.token == token) ||
     s.rows.any (fun r => r.email == email && r.list == list) then
    .error .uniqueViolation
  else
    .ok { rows := s.rows ++ [⟨s.nextId, email, list, token, confirmed, s.now⟩],
          nextId := s.nextId + 1, now := s.now }

/-- The per-row effect of `UPDATE subscribers SET confirmed = 1 WHERE
token = ?`: set the flag on rows with the matching token, leave all other
rows untouched. -/
def confirmRow (t : String) (r : Subscriber) : Subscriber :=
  if r.token == t then { r with confirmed := true } else r

/-- Worker environment bindings (`Env` in `worker.ts`; the `DB` binding is
the `Store` threaded explicitly). -/
structure Env where
  RESEND_API_KEY : String
  ADMIN_SECRET : String
  FROM_EMAIL : String
  WORKER_URL : String
  ALLOWED_ORIGINS : String
deriving Repr, DecidableEq

/-- An inbound HTTP request: method, path, the two headers the worker
reads, the JSON body fields any handler may read, and the query
parameters. `none` models an absent header/field/parameter. -/
structure Request where
  method : String
  path : String
  authorization : Option String
  origin : Option String
  bodyEmail : Option String
  bodyList : Option String
  bodySubject : Option String
  bodyHtml : Option String
  queryToken : Option String
  queryList : Option String
deriving Repr, DecidableEq

/-- The three CORS headers computed by `corsHeaders`. -/
structure CorsHeaders where
  allowOrigin : String
  allowMethods : String
  allowHeaders : String
deriving Repr, DecidableEq

/-- `corsHeaders(request, env)`: reflect the request origin when it appears
in the comma-separated allow-list after trimming, else an empty
`Access-Control-Allow-Origin`. -/
def corsHeaders (req : Request) (env : Env) : CorsHeaders :=
  let origin := req.origin.getD ""
  let allowed := (env.ALLOWED_ORIGINS.splitOn ",").map jsTrim
  let mtch := allowed.contains origin
  ⟨if mtch then origin else "", "POST, GET, OPTIONS", "Content-Type"⟩

/-- One row of an `/admin/list` response
(`SELECT email, list, confirmed, created_at`). -/
structure AdminRow where
  email : String
  list : String
  confirmed : Bool
  createdAt : Nat
deriving Repr, DecidableEq

/-- The JSON payloads the worker produces. -/
inductive JsonData where
  | okTrue
  | okDeleted (deleted : Nat)
  | sent (n : Nat)
  | err (msg : String)
  | rows (rs : List AdminRow)
deriving Repr, DecidableEq

/-- An HTTP response: a JSON response (with CORS headers, as built by the
`json` helper), an HTML page (no CORS headers, as built by the `html`
helper), or the bodyless OPTIONS preflight response. -/
inductive Response where
  | json (data : JsonData) (cors : CorsHeaders) (status : Nat)
  | page (body : String) (status : Nat)
  | preflight (cors : CorsHeaders)
deriving Repr, DecidableEq

/-- The HTTP status code of a response (the preflight is built with
status 204). -/
def Response.statusCode : Response → Nat
  | .json _ _ st => st
  | .page _ st => st
  | .preflight _ => 204

/-- The `json(data, request, env, status)` helper. -/
def json (data : JsonData) (req : Request) (env : Env) (status : Nat) : Response :=
  .json data (corsHeaders req env) status

/-- A handler either returns a response or throws (modelling a JS
exception escaping the handler, caught by `fetch`). -/
inductive Outcome where
  | resp (r : Response)
  | thrown
deriving Repr, DecidableEq

/-- One outbound transport invocation (`sendEmail`): recipient, subject,
HTML body. -/
structure EmailMsg where
  toAddr : String
  subject : String
  htmlBody : String
deriving Repr, DecidableEq

/-- The result of running one handler (or the whole `fetch`): the
outcome, the store afterwards, and the transport invocations made, in
order. -/
structure StepResult where
  outcome : Outcome
  store : Store
  emails : List EmailMsg
deriving Repr, DecidableEq

/-- The HTTP status of a step, or `none` when an exception escaped. -/
def StepResult.status (r : StepResult) : Option Nat :=
  match r.outcome with
  | .resp x => some x.statusCode
  | .thrown => none

/-- `checkAuth(request, env)`: exact equality of the `Authorization`
header with `Bearer <ADMIN_SECRET>` (an absent header never matches). -/
def checkAuth (req : Request) (env : Env) : Bool :=
  req.authorization == some ("Bearer " ++ env.ADMIN_SECRET)

/-- `handleSubscribe`: validate the normalized email and list, insert a
Pending row with the freshly generated `token`, send the confirmation
email through the transport `oracle` (a failed send throws after the row
is already inserted), and answer `{ok:true}`. -/
def handleSubscribe (req : Request) (env : Env) (oracle : EmailMsg → Bool)
    (token : String) (s : Store) : StepResult :=
  let email? := req.bodyEmail.map (fun v => jsToLowerCase (jsTrim v))
  let list? := req.bodyList.map jsTrim
  if !(strTruthy email?) || !(jsIncludes (email?.getD "") '@') then
    ⟨.resp (json (.err "Invalid email") req env 400), s, []⟩
  else if !(strTruthy list?) then
    ⟨.resp (json (.err "Missing list") req env 400), s, []⟩
  else
    let email := email?.getD ""
    let list := list?.getD ""
    match dbInsert email list token false s with
    | .error .uniqueViolation =>
        ⟨.resp (json (.err "Already subscribed") req env 409), s, []⟩
    | .ok s1 =>
        let msg : EmailMsg :=
          ⟨email, "Confirm your subscription",
           "<p>Thanks for subscribing! Please <a href=\"" ++ env.WORKER_URL ++
             "/confirm?token=" ++ token ++ "\">click here to confirm</a>.</p>"⟩
        if oracle msg then ⟨.resp (json .okTrue req env 200), s1, [msg]⟩
        else ⟨.thrown, s1, [msg]⟩

/-- `handleConfirm`: a missing/empty `token` query parameter is a 400
page; otherwise run the UPDATE (which sets `confirmed` on every matching
row) and answer 404 when it changed no row, success HTML otherwise. -/
def handleConfirm (req : Request) (env : Env) (s : Store) : StepResult :=
  if !(strTruthy req.queryToken) then
    ⟨.resp (.page "<p>Invalid link.</p>" 400), s, []⟩
  else
    let t := req.queryToken.getD ""
    let changes := s.rows.countP (fun r => r.token == t)
    let s1 : Store := { s with rows := s.rows.map (confirmRow t) }
    if changes == 0 then
      ⟨.resp (.page "<p>Token not found.</p>" 404), s1, []⟩
    else
      ⟨.resp (.page ("<h1>You\x27re subscribed!</h1><p>You\x27ll receive emails " ++
        "when new posts are published.</p>") 200), s1, []⟩

/-- `handleUnsubscribe`: a missing/empty `token` query parameter is a 400
page; otherwise run the DELETE and answer 404 when it removed no row,
success HTML otherwise. -/
def handleUnsubscribe (req : Request) (env : Env) (s : Store) : StepResult :=
  if !(strTruthy req.queryToken) then
    ⟨.resp (.page "<p>Invalid link.</p>" 400), s, []⟩
  else
    let t := req.queryToken.getD ""
    let changes := s.rows.countP (fun r => r.token == t)
    let s1 : Store := { s with rows := s.rows.filter (fun r => !(r.token == t)) }
    if changes == 0 then
      ⟨.resp (.page "<p>Token not found.</p>" 404), s1, []⟩
    else
      ⟨.resp (.page ("<h1>You\x27ve been unsubscribed.</h1><p>You won\x27t receive " ++
        "any more emails.</p>") 200), s1, []⟩

/-- The per-recipient unsubscribe footer appended to a broadcast body. -/
def unsubFooter (env : Env) (token : String) : String :=
  "<p><a href=\"" ++ env.WORKER_URL ++ "/unsubscribe?token=" ++ token ++
    "\">Unsubscribe</a></p>"

/-- The broadcast loop of `handleSend`: send to each resolved subscriber in
order, counting successes; the first transport failure throws, aborting the
remaining sends (`Bool` result: `true` = completed, `false` = threw). The
log records every transport invocation, the failed one included. -/
def sendLoop (oracle : EmailMsg → Bool) (env : Env) (subject htmlBody : String) :
    List Subscriber → Nat × List EmailMsg × Bool
  | [] => (0, [], true)
  | sub :: rest =>
    let msg : EmailMsg := ⟨sub.email, subject, htmlBody ++ unsubFooter env sub.token⟩
    if oracle msg then
      match sendLoop oracle env subject htmlBody rest with
      | (n, log, ok) => (n + 1, msg :: log, ok)
    else (0, [msg], false)

/-- `handleSend`: admin auth, then field presence, then
`SELECT email, token FROM subscribers WHERE confirmed = 1 AND list = ?`
(the selected rows are passed whole; the loop reads only `email` and
`token`), then the send loop, answering `{sent:N}`. -/
def handleSend (req : Request) (env : Env) (oracle : EmailMsg → Bool)
    (s : Store) : StepResult :=
  if !(checkAuth req env) then
    ⟨.resp (json (.err "Unauthorized") req env 401), s, []⟩
  else if !(strTruthy req.bodySubject) || !(strTruthy req.bodyHtml) ||
      !(strTruthy req.bodyList) then
    ⟨.resp (json (.err "Missing subject, html, or list") req env 400), s, []⟩
  else
    let list := req.bodyList.getD ""
    let subject := req.bodySubject.getD ""
    let htmlBody := req.bodyHtml.getD ""
    let results := s.rows.filter (fun r => r.confirmed && r.list == list)
    match sendLoop oracle env subject htmlBody results with
    | (sent, log, true) => ⟨.resp (json (.sent sent) req env 200), s, log⟩
    | (_, log, false) => ⟨.thrown, s, log⟩

/-- `handleAdminAdd`: admin auth, then the same validation and
normalization as subscribe, then an insert with `confirmed = 1` and no
confirmation email. -/
def handleAdminAdd (req : Request) (env : Env) (token : String) (s : Store) :
    StepResult :=
  if !(checkAuth req env) then
    ⟨.resp (json (.err "Unauthorized") req env 401), s, []⟩
  else
    let email? := req.bodyEmail.map (fun v => jsToLowerCase (jsTrim v))
    let list? := req.bodyList.map jsTrim
    if !(strTruthy email?) || !(jsIncludes (email?.getD "") '@') then
      ⟨.resp (json (.err "Invalid email") req env 400), s, []⟩
    else if !(strTruthy list?) then
      ⟨.resp (json (.err "Missing list") req env 400), s, []⟩
    else
      match dbInsert (email?.getD "") (list?.getD "") token true s with
      | .error .uniqueViolation =>
          ⟨.resp (json (.err "Already subscribed") req env 409), s, []⟩
      | .ok s1 => ⟨.resp (json .okTrue req env 200), s1, []⟩

/-- `handleAdminDelete`: admin auth, require a (raw) email, normalize it,
then DELETE scoped to `(email, list)` when a truthy `list` was supplied
(the list is used untrimmed) and to `email` alone otherwise; zero changes
is a 404, otherwise `{ok:true, deleted:N}`. -/
def handleAdminDelete (req : Request) (env : Env) (s : Store) : StepResult :=
  if !(checkAuth req env) then
    ⟨.resp (json (.err "Unauthorized") req env 401), s, []⟩
  else if !(strTruthy req.bodyEmail) then
    ⟨.resp (json (.err "Missing email") req env 400), s, []⟩
  else
    let email := jsToLowerCase (jsTrim (req.bodyEmail.getD ""))
    let pred : Subscriber → Bool :=
      if strTruthy req.bodyList then
        fun r => r.email == email && r.list == req.bodyList.getD ""
      else
        fun r => r.email == email
    let changes := s.rows.countP pred
    let s1 : Store := { s with rows := s.rows.filter (fun r => !(pred r)) }
    if changes == 0 then
      ⟨.resp (json (.err "Not found") req env 404), s1, []⟩
    else
      ⟨.resp (json (.okDeleted changes) req env 200), s1, []⟩

/-- Insertion of a row into a list kept in descending `created_at` order
(modelling `ORDER BY created_at DESC`; ties keep relative order). -/
def insertDesc (x : Subscriber) : List Subscriber → List Subscriber
  | [] => [x]
  | y :: ys => if y.createdAt ≤ x.createdAt then x :: y :: ys else y :: insertDesc x ys

/-- Sort rows by `created_at` descending (`ORDER BY created_at DESC`). -/
def sortByCreatedAtDesc : List Subscriber → List Subscriber
  | [] => []
  | x :: xs => insertDesc x (sortByCreatedAtDesc xs)

/-- `handleAdminList`: admin auth, then select all rows (filtered to one
list when a truthy `list` query parameter is present), newest first,
projected to `(email, list, confirmed, created_at)`. -/
def handleAdminList (req : Request) (env : Env) (s : Store) : StepResult :=
  if !(checkAuth req env) then
    ⟨.resp (json (.err "Unauthorized") req env 401), s, []⟩
  else
    let selected :=
      if strTruthy req.queryList then
        s.rows.filter (fun r => r.list == req.queryList.getD "")
      else s.rows
    let projected := (sortByCreatedAtDesc selected).map
      (fun r => AdminRow.mk r.email r.list r.confirmed r.createdAt)
    ⟨.resp (json (.rows projected) req env 200), s, []⟩

/-- The route dispatch inside the `try` block of `fetch`: match on path
and method, falling through to the 404 response. -/
def route (req : Request) (env : Env) (oracle : EmailMsg → Bool)
    (token : String) (s : Store) : StepResult :=
  if req.path == "/subscribe" && req.method == "POST" then
    handleSubscribe req env oracle token s
  else if req.path == "/confirm" && req.method == "GET" then
    handleConfirm req env s
  else if req.path == "/unsubscribe" && req.method == "GET" then
    handleUnsubscribe req env s
  else if req.path == "/send" && req.method == "POST" then
    handleSend req env oracle s
  else if req.path == "/admin/add" && req.method == "POST" then
    handleAdminAdd req env token s
  else if req.path == "/admin/delete" && req.method == "POST" then
    handleAdminDelete req env s
  else if req.path == "/admin/list" && req.method == "GET" then
    handleAdminList req env s
  else ⟨.resp (json (.err "Not found") req env 404), s, []⟩

/-- The worker entry point (`export default { fetch }`): answer OPTIONS
preflights with a bodyless 204 carrying the CORS headers before any
routing; otherwise dispatch and map an escaped exception to a 500
(side effects performed before the throw are kept). -/
def workerFetch (req : Request) (env : Env) (oracle : EmailMsg → Bool)
    (token : String) (s : Store) : StepResult :=
  if req.method == "OPTIONS" then
    ⟨.resp (.preflight (corsHeaders req env)), s, []⟩
  else
    let res := route req env oracle token s
    match res.outcome with
    | .thrown =>
        ⟨.resp (json (.err "Internal server error") req env 500), res.store, res.emails⟩
    | .resp _ => res

/-! ### Request builders and invariants -/

/-- A `POST /subscribe` request with the given JSON body. -/
def subscribeReq (email list : String) : Request :=
  ⟨"POST", "/subscribe", none, none, some email, some list, none, none, none, none⟩

/-- A `GET /confirm?token=t` request. -/
def confirmReq (t : String) : Request :=
  ⟨"GET", "/confirm", none, none, none, none, none, none, some t, none⟩

/-- A `GET /unsubscribe?token=t` request. -/
def unsubscribeReq (t : String) : Request :=
  ⟨"GET", "/unsubscribe", none, none, none, none, none, none, some t, none⟩

/-- A `POST /send` request carrying the bearer secret. -/
def sendReq (secret subject htmlBody list : String) : Request :=
  ⟨"POST", "/send", some ("Bearer " ++ secret), none, none, some list,
   some subject, some htmlBody, none, none⟩

/-- A `POST /admin/add` request carrying the bearer secret. -/
def adminAddReq (secret email list : String) : Request :=
  ⟨"POST", "/admin/add", some ("Bearer " ++ secret), none, some email, some list,
   none, none, none, none⟩

/-- A `POST /admin/delete` request carrying the bearer secret (the `list`
body field is optional). -/
def adminDeleteReq (secret email : String) (list? : Option String) : Request :=
  ⟨"POST", "/admin/delete", some ("Bearer " ++ secret), none, some email, list?,
   none, none, none, none⟩

/-- The schema invariant `UNIQUE(email, list)`: no two rows share both
email and list. -/
def UniquePairs (s : Store) : Prop :=
  s.rows.Pairwise (fun a b => ¬(a.email = b.email ∧ a.list = b.list))

/-- Concrete environment used by witnesses. -/
def envA : Env :=
  ⟨"rk-123", "sekrit", "from@example.com", "https://w.test", "https://ok.example"⟩

/-- The empty store. -/
def store0 : Store := ⟨[], 1, 100⟩

/-- A Pending row for `a@x.com` on `blog1`. -/
def rowA : Subscriber := ⟨1, "a@x.com", "blog1", "tokA", false, 10⟩

/-- A Confirmed row for `a@x.com` on `blog2`. -/
def rowB : Subscriber := ⟨2, "a@x.com", "blog2", "tokB", true, 11⟩

/-- A store holding `rowA` and `rowB`. -/
def storeAB : Store := ⟨[rowA, rowB], 3, 100⟩

/-! ### Shared lemmas about the embedded operations -/

/-- `confirmRow` never changes the token. -/
theorem confirmRow_token (t : String) (r : Subscriber) :
    (confirmRow t r).token = r.token := by
  by_cases h : r.token == t <;> simp [confirmRow, h]

/-- `confirmRow` never changes the email. -/
theorem confirmRow_email (t : String) (r : Subscriber) :
    (confirmRow t r).email = r.email := by
  by_cases h : r.token == t <;> simp [confirmRow, h]

/-- `confirmRow` never changes the list. -/
theorem confirmRow_list (t : String) (r : Subscriber) :
    (confirmRow t r).list = r.list := by
  by_cases h : r.token == t <;> simp [confirmRow, h]

/-- `confirmRow` is idempotent. -/
theorem confirmRow_idem (t : String) (r : Subscriber) :
    confirmRow t (confirmRow t r) = confirmRow t r := by
  by_cases h : r.token == t <;> simp [confirmRow, h]

/-- The confirmed flag after `confirmRow`: true exactly when it already
was, or the token matches — it never transitions true to false. -/
theorem confirmRow_confirmed (t : String) (r : Subscriber) :
    (confirmRow t r).confirmed = (r.confirmed || r.token == t) := by
  by_cases h : r.token == t <;> simp [confirmRow, h]

/-- Updating rows none of which carry the token is the identity. -/
theorem map_confirmRow_eq_self (t : String) (l : List Subscriber)
    (h : ∀ r ∈ l, r.token ≠ t) : l.map (confirmRow t) = l := by
  induction l with
  | nil => rfl
  | cons x xs ih =>
    have hx : (x.token == t) = false := by
      simpa using h x (by simp)
    simp [confirmRow, hx, ih (fun r hr => h r (by simp [hr]))]

/-- Row count after deleting the rows satisfying `p`. -/
theorem length_filter_not_add_countP (p : Subscriber → Bool) (l : List Subscriber) :
    (l.filter (fun r => !(p r))).length + l.countP p = l.length := by
  induction l with
  | nil => rfl
  | cons x xs ih =>
    by_cases hx : p x <;>
      simp [List.filter_cons, List.countP_cons, hx] <;> omega

/-! ### Claim theorems -/

/-- C10: every OPTIONS request — any path, no credential — is answered by
the preflight branch before routing, before the admin check and before the
404 fallback: a 204 response carrying the CORS headers, with the store
untouched and no transport call; in particular it is never 404 or 401. -/
theorem options_preflight (req : Request) (env : Env) (oracle : EmailMsg → Bool)
    (token : String) (s : Store) (h : req.method = "OPTIONS") :
    workerFetch req env oracle token s =
      ⟨.resp (.preflight (corsHeaders req env)), s, []⟩ ∧
    (workerFetch req env oracle token s).status = some 204 := by
  unfold workerFetch
  simp [h, StepResult.status, Response.statusCode]

/-- An OPTIONS request to an admin path with no credential, as used by the
preflight witness. -/
def optionsReq : Request :=
  ⟨"OPTIONS", "/admin/list", none, some "https://ok.example", none, none,
   none, none, none, none⟩

/-- Witness for `options_preflight` at a concrete request. -/
theorem options_preflight_witness :
    workerFetch optionsReq envA (fun _ => true) "t1" storeAB =
      ⟨.resp (.preflight (corsHeaders optionsReq envA)), storeAB, []⟩ ∧
    (workerFetch optionsReq envA (fun _ => true) "t1" storeAB).status = some 204 :=
  options_preflight optionsReq envA (fun _ => true) "t1" storeAB rfl

/-- C9: a request hitting any admin-class route (`POST /send`,
`POST /admin/add`, `POST /admin/delete`, `GET /admin/list`) whose
`Authorization` header is not exactly `Bearer <ADMIN_SECRET>` is answered
401 Unauthorized with the store unchanged and no transport call — the
auth check runs before the handler body. -/
theorem admin_auth_gate (req : Request) (env : Env) (oracle : EmailMsg → Bool)
    (token : String) (s : Store)
    (hroute : (req.path = "/send" ∧ req.method = "POST") ∨
              (req.path = "/admin/add" ∧ req.method = "POST") ∨
              (req.path = "/admin/delete" ∧ req.method = "POST") ∨
              (req.path = "/admin/list" ∧ req.method = "GET"))
    (hauth : req.authorization ≠ some ("Bearer " ++ env.ADMIN_SECRET)) :
    workerFetch req env oracle token s =
      ⟨.resp (json (.err "Unauthorized") req env 401), s, []⟩ := by
  have hca : checkAuth req env = false := by
    simp [checkAuth, hauth]
  rcases hroute with ⟨hp, hm⟩ | ⟨hp, hm⟩ | ⟨hp, hm⟩ | ⟨hp, hm⟩ <;>
    simp [workerFetch, route, hp, hm, handleSend, handleAdminAdd,
          handleAdminDelete, handleAdminList, hca]

/-- Witness for `admin_auth_gate`: a credential-less delete request leaves
the two-row store intact and yields 401. -/
theorem admin_auth_gate_witness :
    workerFetch ⟨"POST", "/admin/delete", none, none, some "a@x.com", none,
        none, none, none, none⟩ envA (fun _ => true) "t1" storeAB =
      ⟨.resp (json (.err "Unauthorized")
        ⟨"POST", "/admin/delete", none, none, some "a@x.com", none,
         none, none, none, none⟩ envA 401), storeAB, []⟩ :=
  admin_auth_gate _ envA (fun _ => true) "t1" storeAB
    (Or.inr (Or.inr (Or.inl ⟨rfl, rfl⟩))) (by decide)

/-- C5: a token that resolves to no record makes both `confirm` and
`unsubscribe` answer 404 with the store completely unchanged and no
transport call. -/
theorem unknown_token_not_found (t : String) (env : Env) (s : Store)
    (ht : t ≠ "") (habs : ∀ r ∈ s.rows, r.token ≠ t) :
    handleConfirm (confirmReq t) env s =
      ⟨.resp (.page "<p>Token not found.</p>" 404), s, []⟩ ∧
    handleUnsubscribe (unsubscribeReq t) env s =
      ⟨.resp (.page "<p>Token not found.</p>" 404), s, []⟩ := by
  have hcount : s.rows.countP (fun r => r.token == t) = 0 := by
    refine List.countP_eq_zero.mpr ?_
    intro r hr
    simpa using habs r hr
  have hmap : s.rows.map (confirmRow t) = s.rows :=
    map_confirmRow_eq_self t s.rows habs
  have hfil : s.rows.filter (fun r => !(r.token == t)) = s.rows := by
    refine List.filter_eq_self.mpr ?_
    intro r hr
    simpa using habs r hr
  constructor
  · simp [handleConfirm, confirmReq, strTruthy, ht, hcount, hmap]
  · simp [handleUnsubscribe, unsubscribeReq, strTruthy, ht, hcount, hfil]

/-- Witness for `unknown_token_not_found` at token `nope` over the
two-row store. -/
theorem unknown_token_not_found_witness :
    handleConfirm (confirmReq "nope") envA storeAB =
      ⟨.resp (.page "<p>Token not found.</p>" 404), storeAB, []⟩ ∧
    handleUnsubscribe (unsubscribeReq "nope") envA storeAB =
      ⟨.resp (.page "<p>Token not found.</p>" 404), storeAB, []⟩ :=
  unknown_token_not_found "nope" envA storeAB (by decide) (by decide)

/-- `handleConfirm` on a token carried by at least one row: the success
page, with the flag set on all matching rows. -/
theorem handleConfirm_pos (t : String) (env : Env) (s : Store)
    (ht : t ≠ "") (hpos : s.rows.countP (fun r => r.token == t) ≠ 0) :
    handleConfirm (confirmReq t) env s =
      ⟨.resp (.page ("<h1>You\x27re subscribed!</h1><p>You\x27ll receive emails " ++
        "when new posts are published.</p>") 200),
       { s with rows := s.rows.map (confirmRow t) }, []⟩ := by
  simp only [handleConfirm, confirmReq]
  split
  · next hfalse =>
      exfalso
      simp [strTruthy, ht] at hfalse
  · split
    · next hzero =>
        exfalso
        exact hpos (by simpa using hzero)
    · rfl

/-- C2: when some record carries token `t`, `confirm(t)` answers 200, the
resulting rows are exactly the old rows with `confirmed` set on the
matching record (`confirmRow` never lowers the flag: it computes
`confirmed || token == t`), every record with token `t` is confirmed
afterwards, and a second `confirm(t)` also answers 200 and leaves the
store exactly as after the first call. -/
theorem confirm_success_idempotent (t : String) (env : Env) (s : Store)
    (ht : t ≠ "") (hmem : ∃ r ∈ s.rows, r.token = t) :
    (handleConfirm (confirmReq t) env s).status = some 200 ∧
    (handleConfirm (confirmReq t) env s).store =
      { s with rows := s.rows.map (confirmRow t) } ∧
    (∀ r ∈ (handleConfirm (confirmReq t) env s).store.rows,
        r.token = t → r.confirmed = true) ∧
    (∀ r : Subscriber, (confirmRow t r).confirmed = (r.confirmed || r.token == t)) ∧
    (handleConfirm (confirmReq t) env
        (handleConfirm (confirmReq t) env s).store).status = some 200 ∧
    (handleConfirm (confirmReq t) env
        (handleConfirm (confirmReq t) env s).store).store =
      (handleConfirm (confirmReq t) env s).store := by
  obtain ⟨r0, hr0, hrt⟩ := hmem
  have hpos : s.rows.countP (fun r => r.token == t) ≠ 0 := by
    have h1 : 0 < s.rows.countP (fun r => r.token == t) :=
      List.countP_pos_iff.mpr ⟨r0, hr0, by simp [hrt]⟩
    omega
  have hstat : (handleConfirm (confirmReq t) env s).status = some 200 := by
    simp [handleConfirm, confirmReq, strTruthy, ht, hpos, StepResult.status,
          Response.statusCode]
  have hstore : (handleConfirm (confirmReq t) env s).store =
      { s with rows := s.rows.map (confirmRow t) } := by
    simp [handleConfirm, confirmReq, strTruthy, ht, hpos]
  have hpos1 : (s.rows.map (confirmRow t)).countP (fun r => r.token == t) ≠ 0 := by
    have h1 : 0 < (s.rows.map (confirmRow t)).countP (fun r => r.token == t) :=
      List.countP_pos_iff.mpr ⟨confirmRow t r0, List.mem_map_of_mem _ hr0,
        by simp [confirmRow_token, hrt]⟩
    omega
  have hmapmap : (s.rows.map (confirmRow t)).map (confirmRow t) =
      s.rows.map (confirmRow t) := by
    rw [List.map_map]
    exact List.map_congr_left (fun r _ => by
      simpa [Function.comp] using confirmRow_idem t r)
  refine ⟨hstat, hstore, ?_, fun r => confirmRow_confirmed t r, ?_, ?_⟩
  · intro r hrmem hrt2
    rw [hstore] at hrmem
    obtain ⟨r1, hr1, rfl⟩ := List.mem_map.mp hrmem
    have heq : (r1.token == t) = true := by
      rw [beq_iff_eq]
      rw [confirmRow_token] at hrt2
      exact hrt2
    simp [confirmRow, heq]
  · rw [hstore, handleConfirm_pos t env _ ht hpos1]
    simp [StepResult.status, Response.statusCode]
  · rw [hstore, handleConfirm_pos t env _ ht hpos1]
    simpa using hmapmap

/-- Witness for `confirm_success_idempotent`: confirming `rowA`'s token
over the two-row store succeeds. -/
theorem confirm_success_idempotent_witness :
    (handleConfirm (confirmReq "tokA") envA storeAB).status = some 200 ∧
    (handleConfirm (confirmReq "tokA") envA
        (handleConfirm (confirmReq "tokA") envA storeAB).store).store =
      (handleConfirm (confirmReq "tokA") envA storeAB).store := by
  have h := confirm_success_idempotent "tokA" envA storeAB (by decide) (by decide)
  exact ⟨h.1, h.2.2.2.2.2⟩

/-- C6: when some (unique) record carries token `t`, `unsubscribe(t)`
answers 200 and removes exactly that record: the resulting rows are the
old rows minus those with token `t`, one fewer in number, and every other
record — same email on another list included — survives unchanged. -/
theorem unsubscribe_removes_exactly_one (t : String) (env : Env) (s : Store)
    (ht : t ≠ "") (hone : s.rows.countP (fun r => r.token == t) = 1) :
    (handleUnsubscribe (unsubscribeReq t) env s).status = some 200 ∧
    (handleUnsubscribe (unsubscribeReq t) env s).store =
      { s with rows := s.rows.filter (fun r => !(r.token == t)) } ∧
    (handleUnsubscribe (unsubscribeReq t) env s).store.rows.length + 1 =
      s.rows.length ∧
    (∀ r ∈ s.rows, r.token ≠ t →
      r ∈ (handleUnsubscribe (unsubscribeReq t) env s).store.rows) := by
  have hpos : s.rows.countP (fun r => r.token == t) ≠ 0 := by omega
  have hstat : (handleUnsubscribe (unsubscribeReq t) env s).status = some 200 := by
    simp [handleUnsubscribe, unsubscribeReq, strTruthy, ht, hpos,
          StepResult.status, Response.statusCode]
  have hstore : (handleUnsubscribe (unsubscribeReq t) env s).store =
      { s with rows := s.rows.filter (fun r => !(r.token == t)) } := by
    simp [handleUnsubscribe, unsubscribeReq, strTruthy, ht, hpos]
  refine ⟨hstat, hstore, ?_, ?_⟩
  · rw [hstore]
    have hlen := length_filter_not_add_countP (fun r => r.token == t) s.rows
    simp only [hone] at hlen
    simpa using hlen
  · intro r hr hrt
    rw [hstore]
    exact List.mem_filter.mpr ⟨hr, by simpa using hrt⟩

/-- Witness for `unsubscribe_removes_exactly_one`: removing `rowA` by its
token leaves exactly the sibling `rowB` (same email, other list). -/
theorem unsubscribe_removes_exactly_one_witness :
    (handleUnsubscribe (unsubscribeReq "tokA") envA storeAB).status = some 200 ∧
    rowB ∈ (handleUnsubscribe (unsubscribeReq "tokA") envA storeAB).store.rows := by
  have h := unsubscribe_removes_exactly_one "tokA" envA storeAB (by decide) (by decide)
  exact ⟨h.1, h.2.2.2 rowB (by simp [storeAB]) (by decide)⟩

/-- A DELETE whose predicate matches no row leaves the rows unchanged. -/
theorem filter_not_eq_self (p : Subscriber → Bool) (l : List Subscriber)
    (h : l.countP p = 0) : l.filter (fun r => !(p r)) = l := by
  have h1 : ∀ a ∈ l, p a = false := by simpa using h
  refine List.filter_eq_self.mpr ?_
  intro r hr
  simp [h1 r hr]

/-- Running `handleAdminDelete` with the correct secret, a nonempty email
and a truthy list: the DELETE is scoped to the normalized email and the
raw list value. -/
theorem handleAdminDelete_some (env : Env) (s : Store) (email l : String)
    (he : email ≠ "") (hl : l ≠ "") :
    handleAdminDelete (adminDeleteReq env.ADMIN_SECRET email (some l)) env s =
      (if s.rows.countP
            (fun r => r.email == jsToLowerCase (jsTrim email) && r.list == l) == 0
       then
        ⟨.resp (json (.err "Not found")
            (adminDeleteReq env.ADMIN_SECRET email (some l)) env 404),
         { s with rows := s.rows.filter (fun r =>
             !(r.email == jsToLowerCase (jsTrim email) && r.list == l)) }, []⟩
       else
        ⟨.resp (json (.okDeleted (s.rows.countP
            (fun r => r.email == jsToLowerCase (jsTrim email) && r.list == l)))
            (adminDeleteReq env.ADMIN_SECRET email (some l)) env 200),
         { s with rows := s.rows.filter (fun r =>
             !(r.email == jsToLowerCase (jsTrim email) && r.list == l)) }, []⟩) := by
  simp only [handleAdminDelete, adminDeleteReq]
  split
  · next h => exfalso; simp [checkAuth] at h
  · split
    · next h => exfalso; simp [strTruthy, he] at h
    · have hst : strTruthy (some l) = true := by simp [strTruthy, hl]
      simp [hst]

/-- Running `handleAdminDelete` with the correct secret, a nonempty email
and no list: the DELETE covers every row with the normalized email. -/
theorem handleAdminDelete_none (env : Env) (s : Store) (email : String)
    (he : email ≠ "") :
    handleAdminDelete (adminDeleteReq env.ADMIN_SECRET email none) env s =
      (if s.rows.countP (fun r => r.email == jsToLowerCase (jsTrim email)) == 0
       then
        ⟨.resp (json (.err "Not found")
            (adminDeleteReq env.ADMIN_SECRET email none) env 404),
         { s with rows := s.rows.filter (fun r =>
             !(r.email == jsToLowerCase (jsTrim email))) }, []⟩
       else
        ⟨.resp (json (.okDeleted (s.rows.countP
            (fun r => r.email == jsToLowerCase (jsTrim email))))
            (adminDeleteReq env.ADMIN_SECRET email none) env 200),
         { s with rows := s.rows.filter (fun r =>
             !(r.email == jsToLowerCase (jsTrim email))) }, []⟩) := by
  simp only [handleAdminDelete, adminDeleteReq]
  split
  · next h => exfalso; simp [checkAuth] at h
  · split
    · next h => exfalso; simp [strTruthy, he] at h
    · simp [strTruthy]

/-- C7: `adminDelete(email, list)` deletes exactly the rows matching the
normalized email and the given list (at most one under the schema's pair
uniqueness), `adminDelete(email)` deletes every row with that email across
all lists; in both scopes the row count drops by the number of matches,
zero matches is a 404 leaving the store unchanged, and otherwise the
response reports `deleted` equal to the number of rows removed. -/
theorem adminDelete_scoped_and_global (env : Env) (s : Store) (email l : String)
    (he : email ≠ "") (hl : l ≠ "") :
    ((handleAdminDelete (adminDeleteReq env.ADMIN_SECRET email (some l)) env s).store.rows =
       s.rows.filter (fun r =>
         !(r.email == jsToLowerCase (jsTrim email) && r.list == l))) ∧
    ((handleAdminDelete (adminDeleteReq env.ADMIN_SECRET email (some l)) env s).store.rows.length +
       s.rows.countP (fun r => r.email == jsToLowerCase (jsTrim email) && r.list == l) =
       s.rows.length) ∧
    (s.rows.countP (fun r => r.email == jsToLowerCase (jsTrim email) && r.list == l) = 0 →
      (handleAdminDelete (adminDeleteReq env.ADMIN_SECRET email (some l)) env s).status =
        some 404 ∧
      (handleAdminDelete (adminDeleteReq env.ADMIN_SECRET email (some l)) env s).store = s) ∧
    (∀ n, s.rows.countP (fun r => r.email == jsToLowerCase (jsTrim email) && r.list == l) = n →
      n ≠ 0 →
      (handleAdminDelete (adminDeleteReq env.ADMIN_SECRET email (some l)) env s).outcome =
        .resp (json (.okDeleted n) (adminDeleteReq env.ADMIN_SECRET email (some l)) env 200)) ∧
    ((handleAdminDelete (adminDeleteReq env.ADMIN_SECRET email none) env s).store.rows =
       s.rows.filter (fun r => !(r.email == jsToLowerCase (jsTrim email)))) ∧
    ((handleAdminDelete (adminDeleteReq env.ADMIN_SECRET email none) env s).store.rows.length +
       s.rows.countP (fun r => r.email == jsToLowerCase (jsTrim email)) =
       s.rows.length) ∧
    (s.rows.countP (fun r => r.email == jsToLowerCase (jsTrim email)) = 0 →
      (handleAdminDelete (adminDeleteReq env.ADMIN_SECRET email none) env s).status =
        some 404 ∧
      (handleAdminDelete (adminDeleteReq env.ADMIN_SECRET email none) env s).store = s) ∧
    (∀ n, s.rows.countP (fun r => r.email == jsToLowerCase (jsTrim email)) = n → n ≠ 0 →
      (handleAdminDelete (adminDeleteReq env.ADMIN_SECRET email none) env s).outcome =
        .resp (json (.okDeleted n) (adminDeleteReq env.ADMIN_SECRET email none) env 200)) := by
  rw [handleAdminDelete_some env s email l he hl, handleAdminDelete_none env s email he]
  refine ⟨?_, ?_, ?_, ?_, ?_, ?_, ?_, ?_⟩
  · split <;> rfl
  · have := length_filter_not_add_countP
      (fun r => r.email == jsToLowerCase (jsTrim email) && r.list == l) s.rows
    split <;> simpa using this
  · intro hz
    rw [if_pos (by simpa using hz)]
    have hfil := filter_not_eq_self
      (fun r => r.email == jsToLowerCase (jsTrim email) && r.list == l) s.rows hz
    exact ⟨rfl, by rw [StepResult.store]; rw [hfil]⟩
  · intro n hn hnz
    subst hn
    rw [if_neg (by simpa using hnz)]
  · split <;> rfl
  · have := length_filter_not_add_countP
      (fun r => r.email == jsToLowerCase (jsTrim email)) s.rows
    split <;> simpa using this
  · intro hz
    rw [if_pos (by simpa using hz)]
    have hfil := filter_not_eq_self
      (fun r => r.email == jsToLowerCase (jsTrim email)) s.rows hz
    exact ⟨rfl, by rw [StepResult.store]; rw [hfil]⟩
  · intro n hn hnz
    subst hn
    rw [if_neg (by simpa using hnz)]

/-- Witness for `adminDelete_scoped_and_global` over the two-row store:
scoped delete removes one row, global delete removes both. -/
theorem adminDelete_scoped_and_global_witness :
    (handleAdminDelete (adminDeleteReq envA.ADMIN_SECRET "a@x.com" (some "blog1"))
        envA storeAB).outcome =
      .resp (json (.okDeleted 1)
        (adminDeleteReq envA.ADMIN_SECRET "a@x.com" (some "blog1")) envA 200) ∧
    (handleAdminDelete (adminDeleteReq envA.ADMIN_SECRET "a@x.com" none)
        envA storeAB).outcome =
      .resp (json (.okDeleted 2)
        (adminDeleteReq envA.ADMIN_SECRET "a@x.com" none) envA 200) := by
  have h := adminDelete_scoped_and_global envA storeAB "a@x.com" "blog1"
    (by decide) (by decide)
  exact ⟨h.2.2.2.1 1 (by decide) (by decide),
         h.2.2.2.2.2.2.2 2 (by decide) (by decide)⟩

/-- When every transport call succeeds, the send loop completes, sends one
email per resolved subscriber in order — the supplied body with that
subscriber's own unsubscribe link appended — and counts them all. -/
theorem sendLoop_all_ok (oracle : EmailMsg → Bool) (env : Env)
    (subject htmlBody : String) (l : List Subscriber)
    (hor : ∀ e, oracle e = true) :
    sendLoop oracle env subject htmlBody l =
      (l.length,
       l.map (fun sub => ⟨sub.email, subject, htmlBody ++ unsubFooter env sub.token⟩),
       true) := by
  induction l with
  | nil => rfl
  | cons x xs ih => simp [sendLoop, hor, ih]

/-- C3: with valid admin authorization and an all-success transport,
`broadcast(list, subject, html)` invokes the transport exactly once per
record with `confirmed = true` on the given list (no unconfirmed record,
no record of another list), sending the supplied html with that record's
own token-bearing unsubscribe link appended, leaves the store unchanged,
and answers `{sent:N}` with `N` the number of such records. -/
theorem broadcast_sends_exactly_confirmed (env : Env) (s : Store)
    (oracle : EmailMsg → Bool) (subject htmlBody list : String)
    (hor : ∀ e, oracle e = true)
    (hs : subject ≠ "") (hh : htmlBody ≠ "") (hl : list ≠ "") :
    handleSend (sendReq env.ADMIN_SECRET subject htmlBody list) env oracle s =
      ⟨.resp (json (.sent (s.rows.filter (fun r => r.confirmed && r.list == list)).length)
          (sendReq env.ADMIN_SECRET subject htmlBody list) env 200),
       s,
       (s.rows.filter (fun r => r.confirmed && r.list == list)).map
         (fun sub => ⟨sub.email, subject, htmlBody ++ unsubFooter env sub.token⟩)⟩ := by
  simp only [handleSend, sendReq, Option.getD_some]
  split
  · next h => exfalso; simp [checkAuth] at h
  · split
    · next h => exfalso; simp [strTruthy, hs, hh, hl] at h
    · rw [sendLoop_all_ok oracle env subject htmlBody _ hor]

/-- Witness for `broadcast_sends_exactly_confirmed`: over the two-row
store only the confirmed `blog2` record receives the email. -/
theorem broadcast_sends_exactly_confirmed_witness :
    handleSend (sendReq envA.ADMIN_SECRET "Hi" "<p>Hi</p>" "blog2") envA
        (fun _ => true) storeAB =
      ⟨.resp (json (.sent 1)
          (sendReq envA.ADMIN_SECRET "Hi" "<p>Hi</p>" "blog2") envA 200),
       storeAB,
       [⟨"a@x.com", "Hi", "<p>Hi</p>" ++ unsubFooter envA "tokB"⟩]⟩ := by
  rw [broadcast_sends_exactly_confirmed envA storeAB (fun _ => true) "Hi" "<p>Hi</p>"
    "blog2" (fun _ => rfl) (by decide) (by decide) (by decide)]
  rfl

/-- The confirmation email sent by a successful subscribe for the
normalized address and the generated token. -/
def confirmEmail (env : Env) (email token : String) : EmailMsg :=
  ⟨email, "Confirm your subscription",
   "<p>Thanks for subscribing! Please <a href=\"" ++ env.WORKER_URL ++
     "/confirm?token=" ++ token ++ "\">click here to confirm</a>.</p>"⟩

/-- A valid, fresh, non-colliding subscribe with a working transport:
the Pending row is inserted with normalized email and trimmed list, the
confirmation email goes out, and the response is `{ok:true}`. -/
theorem handleSubscribe_ok (env : Env) (oracle : EmailMsg → Bool)
    (token email list : String) (s : Store)
    (hcontains : jsIncludes (jsToLowerCase (jsTrim email)) '@' = true)
    (hlist : jsTrim list ≠ "")
    (htok : s.rows.any (fun r => r.token == token) = false)
    (hpair : s.rows.any (fun r =>
      r.email == jsToLowerCase (jsTrim email) && r.list == jsTrim list) = false)
    (hor : ∀ e, oracle e = true) :
    handleSubscribe (subscribeReq email list) env oracle token s =
      ⟨.resp (json .okTrue (subscribeReq email list) env 200),
       ⟨s.rows ++
           [⟨s.nextId, jsToLowerCase (jsTrim email), jsTrim list, token, false, s.now⟩],
         s.nextId + 1, s.now⟩,
       [confirmEmail env (jsToLowerCase (jsTrim email)) token]⟩ := by
  have hne : jsToLowerCase (jsTrim email) ≠ "" := by
    intro h0
    rw [h0] at hcontains
    exact absurd hcontains (by decide)
  simp only [handleSubscribe, subscribeReq, Option.map_some', Option.getD_some]
  split
  · next h => exfalso; simp [strTruthy, hne, hcontains] at h
  · split
    · next h => exfalso; simp [strTruthy] at h; exact hlist h
    · have hins : dbInsert (jsToLowerCase (jsTrim email)) (jsTrim list) token false s =
          .ok ⟨s.rows ++
              [⟨s.nextId, jsToLowerCase (jsTrim email), jsTrim list, token, false, s.now⟩],
            s.nextId + 1, s.now⟩ := by
        unfold dbInsert
        rw [if_neg (by simp [htok, hpair])]
      simp only [hins]
      rw [if_pos (hor _)]
      rfl

/-- A valid subscribe whose `(normalized email, trimmed list)` pair (or
token) already exists: the UNIQUE violation maps to 409 with nothing
inserted and no email sent. -/
theorem handleSubscribe_conflict (env : Env) (oracle : EmailMsg → Bool)
    (token email list : String) (s : Store)
    (hcontains : jsIncludes (jsToLowerCase (jsTrim email)) '@' = true)
    (hlist : jsTrim list ≠ "")
    (hpair : s.rows.any (fun r =>
      r.email == jsToLowerCase (jsTrim email) && r.list == jsTrim list) = true) :
    handleSubscribe (subscribeReq email list) env oracle token s =
      ⟨.resp (json (.err "Already subscribed") (subscribeReq email list) env 409),
       s, []⟩ := by
  have hne : jsToLowerCase (jsTrim email) ≠ "" := by
    intro h0
    rw [h0] at hcontains
    exact absurd hcontains (by decide)
  simp only [handleSubscribe, subscribeReq, Option.map_some', Option.getD_some]
  split
  · next h => exfalso; simp [strTruthy, hne, hcontains] at h
  · split
    · next h => exfalso; simp [strTruthy] at h; exact hlist h
    · have hins : dbInsert (jsToLowerCase (jsTrim email)) (jsTrim list) token false s =
          .error .uniqueViolation := by
        unfold dbInsert
        rw [if_pos (by simp [hpair])]
      rw [hins]

/-- A valid, fresh, non-colliding admin add with the correct secret:
the row is inserted already Confirmed, no email is sent. -/
theorem handleAdminAdd_ok (env : Env) (token email list : String) (s : Store)
    (hcontains : jsIncludes (jsToLowerCase (jsTrim email)) '@' = true)
    (hlist : jsTrim list ≠ "")
    (htok : s.rows.any (fun r => r.token == token) = false)
    (hpair : s.rows.any (fun r =>
      r.email == jsToLowerCase (jsTrim email) && r.list == jsTrim list) = false) :
    handleAdminAdd (adminAddReq env.ADMIN_SECRET email list) env token s =
      ⟨.resp (json .okTrue (adminAddReq env.ADMIN_SECRET email list) env 200),
       ⟨s.rows ++
           [⟨s.nextId, jsToLowerCase (jsTrim email), jsTrim list, token, true, s.now⟩],
         s.nextId + 1, s.now⟩,
       []⟩ := by
  have hne : jsToLowerCase (jsTrim email) ≠ "" := by
    intro h0
    rw [h0] at hcontains
    exact absurd hcontains (by decide)
  simp only [handleAdminAdd, adminAddReq, Option.map_some', Option.getD_some]
  split
  · next h => exfalso; simp [checkAuth] at h
  · split
    · next h => exfalso; simp [strTruthy, hne, hcontains] at h
    · split
      · next h => exfalso; simp [strTruthy] at h; exact hlist h
      · have hins : dbInsert (jsToLowerCase (jsTrim email)) (jsTrim list) token true s =
            .ok ⟨s.rows ++
                [⟨s.nextId, jsToLowerCase (jsTrim email), jsTrim list, token, true, s.now⟩],
              s.nextId + 1, s.now⟩ := by
          unfold dbInsert
          rw [if_neg (by simp [htok, hpair])]
        simp only [hins]

/-- A valid admin add whose normalized pair already exists: 409, nothing
inserted. -/
theorem handleAdminAdd_conflict (env : Env) (token email list : String) (s : Store)
    (hcontains : jsIncludes (jsToLowerCase (jsTrim email)) '@' = true)
    (hlist : jsTrim list ≠ "")
    (hpair : s.rows.any (fun r =>
      r.email == jsToLowerCase (jsTrim email) && r.list == jsTrim list) = true) :
    handleAdminAdd (adminAddReq env.ADMIN_SECRET email list) env token s =
      ⟨.resp (json (.err "Already subscribed")
          (adminAddReq env.ADMIN_SECRET email list) env 409), s, []⟩ := by
  have hne : jsToLowerCase (jsTrim email) ≠ "" := by
    intro h0
    rw [h0] at hcontains
    exact absurd hcontains (by decide)
  simp only [handleAdminAdd, adminAddReq, Option.map_some', Option.getD_some]
  split
  · next h => exfalso; simp [checkAuth] at h
  · split
    · next h => exfalso; simp [strTruthy, hne, hcontains] at h
    · split
      · next h => exfalso; simp [strTruthy] at h; exact hlist h
      · have hins : dbInsert (jsToLowerCase (jsTrim email)) (jsTrim list) token true s =
            .error .uniqueViolation := by
          unfold dbInsert
          rw [if_pos (by simp [hpair])]
        simp only [hins]

/-- A successful insert preserves pair uniqueness: the guard has already
ruled out an existing row with the same `(email, list)`. -/
theorem uniquePairs_dbInsert (email list token : String) (c : Bool) (s s1 : Store)
    (h : UniquePairs s) (hins : dbInsert email list token c s = .ok s1) :
    UniquePairs s1 := by
  unfold dbInsert at hins
  split at hins
  · exact absurd hins (by simp)
  · next hcond =>
    have hs1 : s1 = ⟨s.rows ++ [⟨s.nextId, email, list, token, c, s.now⟩],
        s.nextId + 1, s.now⟩ := by
      cases hins; rfl
    subst hs1
    have hpair : s.rows.any (fun r => r.email == email && r.list == list) = false := by
      revert hcond
      cases s.rows.any (fun r => r.token == token) <;>
        cases hval : s.rows.any (fun r => r.email == email && r.list == list) <;> simp
    unfold UniquePairs at h ⊢
    rw [List.pairwise_append]
    refine ⟨h, by simp, ?_⟩
    intro a ha b hb
    simp only [List.mem_singleton] at hb
    subst hb
    have hfa : ∀ x ∈ s.rows, ¬(x.email == email && x.list == list) = true := by
      simpa [List.any_eq_true] using hpair
    have := hfa a ha
    simp only [Bool.and_eq_true, beq_iff_eq] at this
    simpa using this

/-- The confirm UPDATE preserves pair uniqueness: emails and lists are
untouched. -/
theorem uniquePairs_confirm_map (t : String) (s : Store) (h : UniquePairs s) :
    UniquePairs { s with rows := s.rows.map (confirmRow t) } := by
  unfold UniquePairs at h ⊢
  simp only [List.pairwise_map]
  exact h.imp (fun hab => by
    simpa [confirmRow_email, confirmRow_list] using hab)

/-- Any DELETE preserves pair uniqueness: the remaining rows are a
sublist. -/
theorem uniquePairs_filter (p : Subscriber → Bool) (s : Store) (h : UniquePairs s) :
    UniquePairs { s with rows := s.rows.filter p } :=
  List.Pairwise.sublist (List.filter_sublist _) h

/-- `handleSubscribe` preserves pair uniqueness. -/
theorem uniquePairs_handleSubscribe (req : Request) (env : Env)
    (oracle : EmailMsg → Bool) (token : String) (s : Store) (h : UniquePairs s) :
    UniquePairs (handleSubscribe req env oracle token s).store := by
  simp only [handleSubscribe]
  split
  · exact h
  · split
    · exact h
    · split
      · exact h
      · next s1 heq =>
        split
        · exact uniquePairs_dbInsert _ _ _ _ _ _ h heq
        · exact uniquePairs_dbInsert _ _ _ _ _ _ h heq

/-- `handleConfirm` preserves pair uniqueness. -/
theorem uniquePairs_handleConfirm (req : Request) (env : Env) (s : Store)
    (h : UniquePairs s) : UniquePairs (handleConfirm req env s).store := by
  simp only [handleConfirm]
  split
  · exact h
  · split
    · exact uniquePairs_confirm_map _ _ h
    · exact uniquePairs_confirm_map _ _ h

/-- `handleUnsubscribe` preserves pair uniqueness. -/
theorem uniquePairs_handleUnsubscribe (req : Request) (env : Env) (s : Store)
    (h : UniquePairs s) : UniquePairs (handleUnsubscribe req env s).store := by
  simp only [handleUnsubscribe]
  split
  · exact h
  · split
    · exact uniquePairs_filter _ _ h
    · exact uniquePairs_filter _ _ h

/-- `handleSend` never mutates the store, so it preserves pair
uniqueness. -/
theorem uniquePairs_handleSend (req : Request) (env : Env)
    (oracle : EmailMsg → Bool) (s : Store) (h : UniquePairs s) :
    UniquePairs (handleSend req env oracle s).store := by
  simp only [handleSend]
  split
  · exact h
  · split
    · exact h
    · split
      · exact h
      · exact h

/-- `handleAdminAdd` preserves pair uniqueness. -/
theorem uniquePairs_handleAdminAdd (req : Request) (env : Env) (token : String)
    (s : Store) (h : UniquePairs s) :
    UniquePairs (handleAdminAdd req env token s).store := by
  simp only [handleAdminAdd]
  split
  · exact h
  · split
    · exact h
    · split
      · exact h
      · split
        · exact h
        · next s1 heq => exact uniquePairs_dbInsert _ _ _ _ _ _ h heq

/-- `handleAdminDelete` preserves pair uniqueness. -/
theorem uniquePairs_handleAdminDelete (req : Request) (env : Env) (s : Store)
    (h : UniquePairs s) : UniquePairs (handleAdminDelete req env s).store := by
  simp only [handleAdminDelete]
  split
  · exact h
  · split
    · exact h
    · split
      · split
        · exact uniquePairs_filter _ _ h
        · exact uniquePairs_filter _ _ h
      · split
        · exact uniquePairs_filter _ _ h
        · exact uniquePairs_filter _ _ h

/-- `handleAdminList` never mutates the store. -/
theorem uniquePairs_handleAdminList (req : Request) (env : Env) (s : Store)
    (h : UniquePairs s) : UniquePairs (handleAdminList req env s).store := by
  simp only [handleAdminList]
  split
  · exact h
  · exact h

/-- The route dispatch preserves pair uniqueness. -/
theorem uniquePairs_route (req : Request) (env : Env) (oracle : EmailMsg → Bool)
    (token : String) (s : Store) (h : UniquePairs s) :
    UniquePairs (route req env oracle token s).store := by
  simp only [route]
  split
  · exact uniquePairs_handleSubscribe _ _ _ _ _ h
  · split
    · exact uniquePairs_handleConfirm _ _ _ h
    · split
      · exact uniquePairs_handleUnsubscribe _ _ _ h
      · split
        · exact uniquePairs_handleSend _ _ _ _ h
        · split
          · exact uniquePairs_handleAdminAdd _ _ _ _ h
          · split
            · exact uniquePairs_handleAdminDelete _ _ _ h
            · split
              · exact uniquePairs_handleAdminList _ _ _ h
              · exact h

/-- The whole worker entry point preserves pair uniqueness. -/
theorem uniquePairs_workerFetch (req : Request) (env : Env)
    (oracle : EmailMsg → Bool) (token : String) (s : Store) (h : UniquePairs s) :
    UniquePairs (workerFetch req env oracle token s).store := by
  simp only [workerFetch]
  split
  · exact h
  · split
    · exact uniquePairs_route _ _ _ _ _ h
    · exact uniquePairs_route _ _ _ _ _ h

/-- C1: at most one record per `(email, list)` pair. Subscribing a pair
that already has a record (Pending or Confirmed) is answered 409
`Already subscribed` with nothing inserted; the same email subscribes
successfully to two different lists in sequence; and every operation of
the worker preserves the pair-uniqueness invariant. -/
theorem unique_pair_invariant :
    (∀ (env : Env) (oracle : EmailMsg → Bool) (token email list : String) (s : Store),
       jsIncludes (jsToLowerCase (jsTrim email)) '@' = true →
       jsTrim list ≠ "" →
       (∃ r ∈ s.rows, r.email = jsToLowerCase (jsTrim email) ∧ r.list = jsTrim list) →
       handleSubscribe (subscribeReq email list) env oracle token s =
         ⟨.resp (json (.err "Already subscribed") (subscribeReq email list) env 409),
          s, []⟩) ∧
    (∀ (env : Env) (oracle : EmailMsg → Bool) (t1 t2 email l1 l2 : String) (s : Store),
       jsIncludes (jsToLowerCase (jsTrim email)) '@' = true →
       jsTrim l1 ≠ "" → jsTrim l2 ≠ "" → jsTrim l1 ≠ jsTrim l2 → t1 ≠ t2 →
       (∀ e, oracle e = true) →
       (∀ r ∈ s.rows, r.token ≠ t1 ∧ r.token ≠ t2 ∧
          ¬(r.email = jsToLowerCase (jsTrim email) ∧ r.list = jsTrim l1) ∧
          ¬(r.email = jsToLowerCase (jsTrim email) ∧ r.list = jsTrim l2)) →
       (handleSubscribe (subscribeReq email l1) env oracle t1 s).status = some 200 ∧
       (handleSubscribe (subscribeReq email l2) env oracle t2
          (handleSubscribe (subscribeReq email l1) env oracle t1 s).store).status =
         some 200) ∧
    (∀ (req : Request) (env : Env) (oracle : EmailMsg → Bool) (token : String)
       (s : Store), UniquePairs s →
       UniquePairs (workerFetch req env oracle token s).store) := by
  refine ⟨?_, ?_, ?_⟩
  · intro env oracle token email list s hc hl hex
    obtain ⟨r, hr, hre, hrl⟩ := hex
    exact handleSubscribe_conflict env oracle token email list s hc hl
      (List.any_eq_true.mpr ⟨r, hr, by simp [hre, hrl]⟩)
  · intro env oracle t1 t2 email l1 l2 s hc hl1 hl2 hll ht12 hor hfresh
    have htok1 : s.rows.any (fun r => r.token == t1) = false := by
      have hne : ¬(s.rows.any (fun r => r.token == t1) = true) := by
        rw [List.any_eq_true]
        rintro ⟨r, hr, hbeq⟩
        exact (hfresh r hr).1 (by simpa using hbeq)
      simpa using hne
    have hpair1 : s.rows.any (fun r =>
        r.email == jsToLowerCase (jsTrim email) && r.list == jsTrim l1) = false := by
      have hne : ¬(s.rows.any (fun r =>
          r.email == jsToLowerCase (jsTrim email) && r.list == jsTrim l1) = true) := by
        rw [List.any_eq_true]
        rintro ⟨r, hr, hbeq⟩
        simp only [Bool.and_eq_true, beq_iff_eq] at hbeq
        exact (hfresh r hr).2.2.1 hbeq
      simpa using hne
    have h1 := handleSubscribe_ok env oracle t1 email l1 s hc hl1 htok1 hpair1 hor
    have htok2 : (s.rows ++
        [(⟨s.nextId, jsToLowerCase (jsTrim email), jsTrim l1, t1, false, s.now⟩ : Subscriber)]).any
          (fun r => r.token == t2) = false := by
      have hne : ¬((s.rows ++
          [(⟨s.nextId, jsToLowerCase (jsTrim email), jsTrim l1, t1, false, s.now⟩ : Subscriber)]).any
            (fun r => r.token == t2) = true) := by
        rw [List.any_eq_true]
        rintro ⟨r, hr, hbeq⟩
        rw [List.mem_append] at hr
        rcases hr with hr | hr
        · exact (hfresh r hr).2.1 (by simpa using hbeq)
        · simp only [List.mem_singleton] at hr
          subst hr
          exact ht12 (by simpa using hbeq)
      simpa using hne
    have hpair2 : (s.rows ++
        [(⟨s.nextId, jsToLowerCase (jsTrim email), jsTrim l1, t1, false, s.now⟩ : Subscriber)]).any
          (fun r => r.email == jsToLowerCase (jsTrim email) && r.list == jsTrim l2) =
        false := by
      have hne : ¬((s.rows ++
          [(⟨s.nextId, jsToLowerCase (jsTrim email), jsTrim l1, t1, false, s.now⟩ : Subscriber)]).any
            (fun r => r.email == jsToLowerCase (jsTrim email) && r.list == jsTrim l2) =
          true) := by
        rw [List.any_eq_true]
        rintro ⟨r, hr, hbeq⟩
        simp only [Bool.and_eq_true, beq_iff_eq] at hbeq
        rw [List.mem_append] at hr
        rcases hr with hr | hr
        · exact (hfresh r hr).2.2.2 hbeq
        · simp only [List.mem_singleton] at hr
          subst hr
          exact hll hbeq.2
      simpa using hne
    have h2 := handleSubscribe_ok env oracle t2 email l2
      ⟨s.rows ++ [(⟨s.nextId, jsToLowerCase (jsTrim email), jsTrim l1, t1, false, s.now⟩ : Subscriber)],
       s.nextId + 1, s.now⟩ hc hl2 htok2 hpair2 hor
    constructor
    · rw [h1]
      rfl
    · rw [h1]
      show (handleSubscribe (subscribeReq email l2) env oracle t2
        ⟨s.rows ++ [(⟨s.nextId, jsToLowerCase (jsTrim email), jsTrim l1, t1, false, s.now⟩ : Subscriber)],
         s.nextId + 1, s.now⟩).status = some 200
      rw [h2]
      rfl
  · intro req env oracle token s h
    exact uniquePairs_workerFetch req env oracle token s h

/-- Witness for `unique_pair_invariant`: the re-subscribe conflict, the
two-list double subscribe, and invariant preservation at concrete
inputs. -/
theorem unique_pair_invariant_witness :
    handleSubscribe (subscribeReq "a@x.com" "blog1") envA (fun _ => true) "t9" storeAB =
      ⟨.resp (json (.err "Already subscribed")
          (subscribeReq "a@x.com" "blog1") envA 409), storeAB, []⟩ ∧
    (handleSubscribe (subscribeReq "a@x.com" "blog1") envA (fun _ => true) "t1"
       store0).status = some 200 ∧
    (handleSubscribe (subscribeReq "a@x.com" "blog2") envA (fun _ => true) "t2"
       (handleSubscribe (subscribeReq "a@x.com" "blog1") envA (fun _ => true) "t1"
          store0).store).status = some 200 ∧
    UniquePairs (workerFetch (subscribeReq "b@y.com" "blog1") envA (fun _ => true)
       "t3" storeAB).store := by
  have hpart2 := unique_pair_invariant.2.1 envA (fun _ => true) "t1" "t2" "a@x.com"
    "blog1" "blog2" store0 (by decide) (by decide) (by decide) (by decide)
    (by decide) (fun _ => rfl) (by decide)
  refine ⟨?_, hpart2.1, hpart2.2, ?_⟩
  · exact unique_pair_invariant.1 envA (fun _ => true) "t9" "a@x.com" "blog1" storeAB
      (by decide) (by decide) ⟨rowA, by decide⟩
  · exact unique_pair_invariant.2.2 (subscribeReq "b@y.com" "blog1") envA
      (fun _ => true) "t3" storeAB (by unfold UniquePairs; decide)

/-- C8: subscribe and adminAdd lowercase+trim the email and trim the list
before storage: the inserted row carries the normalized values, and a
second request whose email differs only by case/whitespace and whose list
differs only by whitespace targets the same pair and is answered 409 with
the store unchanged — for subscribe and for adminAdd alike. -/
theorem normalization_collision (env : Env) (oracle : EmailMsg → Bool)
    (t1 t2 e1 l1 e2 l2 : String) (s : Store)
    (hemail : jsToLowerCase (jsTrim e1) = jsToLowerCase (jsTrim e2))
    (hlist : jsTrim l1 = jsTrim l2)
    (hc : jsIncludes (jsToLowerCase (jsTrim e1)) '@' = true)
    (hl : jsTrim l1 ≠ "")
    (htok : s.rows.any (fun r => r.token == t1) = false)
    (hpair : s.rows.any (fun r =>
        r.email == jsToLowerCase (jsTrim e1) && r.list == jsTrim l1) = false)
    (hor : ∀ e, oracle e = true) :
    (handleSubscribe (subscribeReq e1 l1) env oracle t1 s).store.rows =
      s.rows ++ [⟨s.nextId, jsToLowerCase (jsTrim e1), jsTrim l1, t1, false, s.now⟩] ∧
    handleSubscribe (subscribeReq e2 l2) env oracle t2
        (handleSubscribe (subscribeReq e1 l1) env oracle t1 s).store =
      ⟨.resp (json (.err "Already subscribed") (subscribeReq e2 l2) env 409),
       (handleSubscribe (subscribeReq e1 l1) env oracle t1 s).store, []⟩ ∧
    (handleAdminAdd (adminAddReq env.ADMIN_SECRET e1 l1) env t1 s).store.rows =
      s.rows ++ [⟨s.nextId, jsToLowerCase (jsTrim e1), jsTrim l1, t1, true, s.now⟩] ∧
    handleAdminAdd (adminAddReq env.ADMIN_SECRET e2 l2) env t2
        (handleAdminAdd (adminAddReq env.ADMIN_SECRET e1 l1) env t1 s).store =
      ⟨.resp (json (.err "Already subscribed")
          (adminAddReq env.ADMIN_SECRET e2 l2) env 409),
       (handleAdminAdd (adminAddReq env.ADMIN_SECRET e1 l1) env t1 s).store, []⟩ := by
  have hc2 : jsIncludes (jsToLowerCase (jsTrim e2)) '@' = true := hemail ▸ hc
  have hl2 : jsTrim l2 ≠ "" := hlist ▸ hl
  have h1 := handleSubscribe_ok env oracle t1 e1 l1 s hc hl htok hpair hor
  have ha1 := handleAdminAdd_ok env t1 e1 l1 s hc hl htok hpair
  have hpair2sub : (s.rows ++
      [(⟨s.nextId, jsToLowerCase (jsTrim e1), jsTrim l1, t1, false, s.now⟩ : Subscriber)]).any
        (fun r => r.email == jsToLowerCase (jsTrim e2) && r.list == jsTrim l2) = true := by
    refine List.any_eq_true.mpr
      ⟨⟨s.nextId, jsToLowerCase (jsTrim e1), jsTrim l1, t1, false, s.now⟩, by simp, ?_⟩
    simp [hemail, hlist]
  have hpair2add : (s.rows ++
      [(⟨s.nextId, jsToLowerCase (jsTrim e1), jsTrim l1, t1, true, s.now⟩ : Subscriber)]).any
        (fun r => r.email == jsToLowerCase (jsTrim e2) && r.list == jsTrim l2) = true := by
    refine List.any_eq_true.mpr
      ⟨⟨s.nextId, jsToLowerCase (jsTrim e1), jsTrim l1, t1, true, s.now⟩, by simp, ?_⟩
    simp [hemail, hlist]
  have h2 := handleSubscribe_conflict env oracle t2 e2 l2
    ⟨s.rows ++ [(⟨s.nextId, jsToLowerCase (jsTrim e1), jsTrim l1, t1, false, s.now⟩ : Subscriber)],
     s.nextId + 1, s.now⟩ hc2 hl2 hpair2sub
  have ha2 := handleAdminAdd_conflict env t2 e2 l2
    ⟨s.rows ++ [(⟨s.nextId, jsToLowerCase (jsTrim e1), jsTrim l1, t1, true, s.now⟩ : Subscriber)],
     s.nextId + 1, s.now⟩ hc2 hl2 hpair2add
  refine ⟨by rw [h1], ?_, by rw [ha1], ?_⟩
  · rw [h1]
    exact h2
  · rw [ha1]
    exact ha2

/-- Witness for `normalization_collision`: `" A@X.com "` on `" blog "`
collides with `a@x.com` on `blog` for subscribe and for adminAdd. -/
theorem normalization_collision_witness :
    (handleSubscribe (subscribeReq " A@X.com " " blog ") envA (fun _ => true)
       "t1" store0).store.rows =
      store0.rows ++ [⟨store0.nextId, "a@x.com", "blog", "t1", false, store0.now⟩] ∧
    handleSubscribe (subscribeReq "a@x.com" "blog") envA (fun _ => true) "t2"
        (handleSubscribe (subscribeReq " A@X.com " " blog ") envA (fun _ => true)
           "t1" store0).store =
      ⟨.resp (json (.err "Already subscribed") (subscribeReq "a@x.com" "blog") envA 409),
       (handleSubscribe (subscribeReq " A@X.com " " blog ") envA (fun _ => true)
          "t1" store0).store, []⟩ := by
  have h := normalization_collision envA (fun _ => true) "t1" "t2" " A@X.com "
    " blog " "a@x.com" "blog" store0 (by decide) (by decide) (by decide)
    (by decide) (by decide) (by decide) (fun _ => rfl)
  exact ⟨by rw [h.1]; decide, h.2.1⟩

/-- The spec's reading of the email precondition, written from its words
for comparison with the code's check: the string has an `@` separator
with non-empty local and domain parts, i.e. an `@` strictly inside the
string. -/
def specEmailOk (e : String) : Bool :=
  (e.toList.drop 1).dropLast.any (fun c => c == '@')

/-- C4 counterexample: `a@` has an empty domain part, so the claim says
subscribe must reject it with 400; the code's check (`non-empty and
contains "@"`) accepts it, proceeds to insertion and answers 200. -/
theorem subscribe_validation_cex :
    specEmailOk (jsToLowerCase (jsTrim "a@")) = false ∧
    (handleSubscribe (subscribeReq "a@" "blog") envA (fun _ => true) "t1"
       store0).status = some 200 ∧
    (handleSubscribe (subscribeReq "a@" "blog") envA (fun _ => true) "t1"
       store0).store.rows.length = 1 := by
  refine ⟨rfl, ?_, ?_⟩ <;> rfl

/-- C4 (amended): subscribe and adminAdd (the latter under correct admin
authorization) answer 400 exactly when the trimmed+lowercased email is
empty or lacks an `@` character, or the trimmed list is empty; a request
passing both checks proceeds to insertion — either the 409 conflict with
the store unchanged, or the normalized row is appended. -/
theorem subscribe_adminAdd_validation (env : Env) (oracle : EmailMsg → Bool)
    (token email list : String) (s : Store) :
    ((handleSubscribe (subscribeReq email list) env oracle token s).status = some 400 ↔
      (jsToLowerCase (jsTrim email) = "" ∨
       jsIncludes (jsToLowerCase (jsTrim email)) '@' = false ∨
       jsTrim list = "")) ∧
    ((handleAdminAdd (adminAddReq env.ADMIN_SECRET email list) env token s).status =
        some 400 ↔
      (jsToLowerCase (jsTrim email) = "" ∨
       jsIncludes (jsToLowerCase (jsTrim email)) '@' = false ∨
       jsTrim list = "")) ∧
    (¬(jsToLowerCase (jsTrim email) = "" ∨
       jsIncludes (jsToLowerCase (jsTrim email)) '@' = false ∨
       jsTrim list = "") →
      (((handleSubscribe (subscribeReq email list) env oracle token s).store = s ∧
        (handleSubscribe (subscribeReq email list) env oracle token s).status =
          some 409) ∨
       (handleSubscribe (subscribeReq email list) env oracle token s).store.rows =
         s.rows ++
           [⟨s.nextId, jsToLowerCase (jsTrim email), jsTrim list, token, false, s.now⟩]) ∧
      (((handleAdminAdd (adminAddReq env.ADMIN_SECRET email list) env token s).store = s ∧
        (handleAdminAdd (adminAddReq env.ADMIN_SECRET email list) env token s).status =
          some 409) ∨
       (handleAdminAdd (adminAddReq env.ADMIN_SECRET email list) env token s).store.rows =
         s.rows ++
           [⟨s.nextId, jsToLowerCase (jsTrim email), jsTrim list, token, true, s.now⟩])) := by
  refine ⟨?_, ?_, ?_⟩
  · simp only [handleSubscribe, subscribeReq, Option.map_some', Option.getD_some]
    split
    · next h =>
      simp only [strTruthy] at h
      constructor
      · intro _
        rcases (by simpa using h :
            jsToLowerCase (jsTrim email) = "" ∨
            jsIncludes (jsToLowerCase (jsTrim email)) '@' = false) with h | h
        · exact Or.inl h
        · exact Or.inr (Or.inl h)
      · intro _
        rfl
    · next h =>
      split
      · next h2 =>
        simp only [strTruthy] at h2
        constructor
        · intro _
          exact Or.inr (Or.inr (by simpa using h2))
        · intro _
          rfl
      · next h2 =>
        simp only [strTruthy] at h h2
        constructor
        · intro habs
          exfalso
          revert habs
          split
          · intro habs
            simp [StepResult.status, Response.statusCode, json] at habs
          · split
            · intro habs
              simp [StepResult.status, Response.statusCode, json] at habs
            · intro habs
              simp [StepResult.status] at habs
        · intro hrhs
          exfalso
          rcases hrhs with hr | hr | hr
          · simp [hr] at h
          · simp [hr] at h
          · simp [hr] at h2
  · simp only [handleAdminAdd, adminAddReq, Option.map_some', Option.getD_some]
    split
    · next h => exfalso; simp [checkAuth] at h
    · split
      · next h =>
        simp only [strTruthy] at h
        constructor
        · intro _
          rcases (by simpa using h :
              jsToLowerCase (jsTrim email) = "" ∨
              jsIncludes (jsToLowerCase (jsTrim email)) '@' = false) with h | h
          · exact Or.inl h
          · exact Or.inr (Or.inl h)
        · intro _
          rfl
      · next h =>
        split
        · next h2 =>
          simp only [strTruthy] at h2
          constructor
          · intro _
            exact Or.inr (Or.inr (by simpa using h2))
          · intro _
            rfl
        · next h2 =>
          simp only [strTruthy] at h h2
          constructor
          · intro habs
            exfalso
            revert habs
            split
            · intro habs
              simp [StepResult.status, Response.statusCode, json] at habs
            · intro habs
              simp [StepResult.status, Response.statusCode, json] at habs
          · intro hrhs
            exfalso
            rcases hrhs with hr | hr | hr
            · simp [hr] at h
            · simp [hr] at h
            · simp [hr] at h2
  · intro hval
    push_neg at hval
    obtain ⟨hv1, hv2, hv3⟩ := hval
    have hc : jsIncludes (jsToLowerCase (jsTrim email)) '@' = true := by
      cases hx : jsIncludes (jsToLowerCase (jsTrim email)) '@'
      · exact absurd hx hv2
      · rfl
    constructor
    · simp only [handleSubscribe, subscribeReq, Option.map_some', Option.getD_some]
      rw [if_neg (by simp [strTruthy, hv1, hc])]
      rw [if_neg (by simp [strTruthy, hv3])]
      split
      · exact Or.inl ⟨rfl, rfl⟩
      · next s1 heq =>
        have hs1 : s1 = ⟨s.rows ++
            [⟨s.nextId, jsToLowerCase (jsTrim email), jsTrim list, token, false, s.now⟩],
            s.nextId + 1, s.now⟩ := by
          unfold dbInsert at heq
          split at heq
          · exact absurd heq (by simp)
          · cases heq; rfl
        subst hs1
        split
        · exact Or.inr rfl
        · exact Or.inr rfl
    · simp only [handleAdminAdd, adminAddReq, Option.map_some', Option.getD_some]
      rw [if_neg (by simp [checkAuth])]
      rw [if_neg (by simp [strTruthy, hv1, hc])]
      rw [if_neg (by simp [strTruthy, hv3])]
      split
      · exact Or.inl ⟨rfl, rfl⟩
      · next s1 heq =>
        have hs1 : s1 = ⟨s.rows ++
            [⟨s.nextId, jsToLowerCase (jsTrim email), jsTrim list, token, true, s.now⟩],
            s.nextId + 1, s.now⟩ := by
          unfold dbInsert at heq
          split at heq
          · exact absurd heq (by simp)
          · cases heq; rfl
        subst hs1
        exact Or.inr rfl

/-- Witness for `subscribe_adminAdd_validation`: `notanemail` is rejected
400, a valid unseen request is not. -/
theorem subscribe_adminAdd_validation_witness :
    (handleSubscribe (subscribeReq "notanemail" "blog") envA (fun _ => true) "t1"
       store0).status = some 400 ∧
    ¬((handleSubscribe (subscribeReq "ok@x.com" "blog") envA (fun _ => true) "t1"
       store0).status = some 400) := by
  constructor
  · exact (subscribe_adminAdd_validation envA (fun _ => true) "t1" "notanemail"
      "blog" store0).1.mpr (Or.inr (Or.inl (by decide)))
  · intro habs
    have h := (subscribe_adminAdd_validation envA (fun _ => true) "t1" "ok@x.com"
      "blog" store0).1.mp habs
    revert h
    decide

end BuskCats
